import Mathlib

/-!
Shallow embedding of `src/acme.rs` (the acre library's acme client).

The event stream is modelled as a list of characters (the Rust code reads
the `event` file one byte at a time and treats each byte as a `char`).
Each reading primitive consumes a prefix of the stream and returns the
decoded value together with the remaining stream, or an error message,
mirroring the `Result`-returning Rust methods on `WinEvents`.

Machine integers: the numeric event fields are `u32` in Rust; they are
modelled as `Nat`, with an explicit `% 2^32` in `get_digits` where the Rust
accumulation `n = n * 10 + digit` can overflow.
-/

deriving instance DecidableEq for Except

namespace Acre

/-- Wrap-around modulus for the Rust `u32` arithmetic in `get_en`. -/
def U32MOD : Nat := 4294967296

/-- The `Event` struct of `acme.rs`, field for field. -/
structure Event where
  c1 : Char
  c2 : Char
  q0 : Nat
  q1 : Nat
  orig_q0 : Nat
  orig_q1 : Nat
  flag : Nat
  nr : Nat
  text : String
  arg : String
  loc : String
deriving Repr, DecidableEq

/-- The constant `EVENT_SIZE` of `acme.rs`. -/
def EVENT_SIZE : Nat := 256

/-- `WinEvents::get_ch`: read one character from the stream; error at end of
stream. -/
def get_ch : List Char → Except String (Char × List Char)
  | [] => .error "expected another character"
  | c :: rest => .ok (c, rest)

/-- The loop inside `WinEvents::get_en`: starting from accumulator `n`, read
characters while they are decimal digits, accumulating `n * 10 + digit` with
`u32` wrap-around; stop at (and also return) the first non-digit character. -/
def get_digits : Nat → List Char → Except String (Nat × Char × List Char)
  | _, [] => .error "expected another character"
  | n, c :: rest =>
    if c < '0' ∨ '9' < c then .ok (n, c, rest)
    else get_digits ((n * 10 + (c.toNat - '0'.toNat)) % U32MOD) rest

/-- `WinEvents::get_en`: read a digit run; the character that ended the run
must be a single space, otherwise the field is malformed. -/
def get_en (s : List Char) : Except String (Nat × List Char) :=
  match get_digits 0 s with
  | .error e => .error e
  | .ok (n, c, rest) =>
    if c ≠ ' ' then .error "event number syntax" else .ok (n, rest)

/-- The text-reading loop of `WinEvents::get_event`: read exactly `nr`
characters. -/
def get_text : Nat → List Char → Except String (List Char × List Char)
  | 0, s => .ok ([], s)
  | k + 1, s =>
    match get_ch s with
    | .error e => .error e
    | .ok (c, s1) =>
      match get_text k s1 with
      | .error e => .error e
      | .ok (cs, s2) => .ok (c :: cs, s2)

/-- `WinEvents::get_event`: decode one raw record: two characters, four
numeric fields, the size check against `EVENT_SIZE`, `nr` text characters and
the terminating newline. -/
def get_event (s : List Char) : Except String (Event × List Char) :=
  match get_ch s with
  | .error e => .error e
  | .ok (c1, s1) =>
  match get_ch s1 with
  | .error e => .error e
  | .ok (c2, s2) =>
  match get_en s2 with
  | .error e => .error e
  | .ok (q0, s3) =>
  match get_en s3 with
  | .error e => .error e
  | .ok (q1, s4) =>
  match get_en s4 with
  | .error e => .error e
  | .ok (flag, s5) =>
  match get_en s5 with
  | .error e => .error e
  | .ok (nr, s6) =>
  if nr > EVENT_SIZE then .error "event size too long"
  else
    match get_text nr s6 with
    | .error e => .error e
    | .ok (text, s7) =>
    match get_ch s7 with
    | .error e => .error e
    | .ok (nl, s8) =>
    if nl ≠ '\n' then .error "phase error"
    else
      .ok ({ c1 := c1, c2 := c2, q0 := q0, q1 := q1, flag := flag, nr := nr,
             text := ⟨text⟩, orig_q0 := q0, orig_q1 := q1,
             arg := "", loc := "" }, s8)

/-- `WinEvents::read_event`: decode one logical event: the base record, the
expansion record when flag bit 2 is set (replacing the result when the base
record's addresses coincide), and the two chorded-argument records when the
resulting record's flag bit 8 is set. -/
def read_event (s : List Char) : Except String (Event × List Char) :=
  match get_event s with
  | .error er => .error er
  | .ok (e1, s1) =>
  match
    ((if e1.flag &&& 2 ≠ 0 then
      match get_event s1 with
      | .error er => .error er
      | .ok (e2, s2) =>
        if e1.q0 = e1.q1 then
          .ok ({ e2 with orig_q0 := e1.q0, orig_q1 := e1.q1, flag := e1.flag }, s2)
        else .ok (e1, s2)
    else .ok (e1, s1)) : Except String (Event × List Char)) with
  | .error er => .error er
  | .ok (e, t) =>
    if e.flag &&& 8 ≠ 0 then
      match get_event t with
      | .error er => .error er
      | .ok (e3, t1) =>
      match get_event t1 with
      | .error er => .error er
      | .ok (e4, t2) => .ok ({ e with arg := e3.text, loc := e4.text }, t2)
    else .ok (e, t)

/-- Decimal digit characters of a natural number, most significant first:
the bytes Rust's `Display` for `u32` writes. -/
def natDigits (n : Nat) : List Char :=
  if n < 10 then [Nat.digitChar n]
  else natDigits (n / 10) ++ [Nat.digitChar (n % 10)]
decreasing_by exact Nat.div_lt_self (by omega) (by omega)

/-- `WinEvents::write_event`: the bytes written to the event file,
`format!("\x7b\x7d\x7b\x7d\x7b\x7d \x7b\x7d \n", ev.c1, ev.c2, ev.q0, ev.q1)`. -/
def write_event (ev : Event) : List Char :=
  [ev.c1, ev.c2] ++ natDigits ev.q0 ++ [' '] ++ natDigits ev.q1 ++ [' ', '\n']

/-- Remaining stream after decoding `n` consecutive raw records with
`get_event`. -/
def drop_events : Nat → List Char → Except String (List Char)
  | 0, s => .ok s
  | n + 1, s =>
    match get_event s with
    | .error e => .error e
    | .ok (_, s1) => drop_events n s1

/-- The accumulation `get_digits` performs over a digit run, starting from 0:
the wrapped `u32` value of the run. -/
def digits_val (ds : List Char) : Nat :=
  ds.foldl (fun n c => (n * 10 + (c.toNat - '0'.toNat)) % U32MOD) 0

/-- The exact decimal value of a digit run, without wrap-around. -/
def decimal_val (ds : List Char) : Nat :=
  ds.foldl (fun n c => n * 10 + (c.toNat - '0'.toNat)) 0

/-- The digit test of `get_en`: the characters that continue a digit run. -/
def isDig (c : Char) : Prop := ¬(c < '0' ∨ '9' < c)

instance (c : Char) : Decidable (isDig c) := by unfold isDig; infer_instance

/-- A raw record built from exactly the bytes `write_event` produced, with
flag 0 and count 0: the two zero fields slot in before the frame newline. -/
def record_of_output (out : List Char) : List Char :=
  out.dropLast ++ ('0' :: ' ' :: '0' :: ' ' :: '\n' :: [])

/-- The `File` enum of `acme.rs`: the dispatch key selecting one of the five
per-window resource handles. -/
inductive File
  | Ctl
  | Body
  | Addr
  | Data
  | Tag
deriving Repr, DecidableEq

/-- Observable effect of a `Win`'s control operations: the sequence of writes
issued to its resources, in order. Each `Win` method only appends writes. -/
structure WinState where
  writes : List (File × String)
deriving Repr, DecidableEq

/-- `Win::write`: write the literal bytes of `data` to the resource selected
by `file`. -/
def Win.write (w : WinState) (file : File) (data : String) : WinState :=
  { writes := w.writes ++ [(file, data)] }

/-- `Win::ctl`: write the command followed by a newline to the ctl resource. -/
def Win.ctl (w : WinState) (data : String) : WinState :=
  Win.write w File.Ctl (data ++ "\n")

/-- `Win::addr`: write the address expression followed by a newline to the
addr resource. -/
def Win.addr (w : WinState) (data : String) : WinState :=
  Win.write w File.Addr (data ++ "\n")

/-- `Win::clear`: write `,` to the addr resource, then the empty string to the
data resource. -/
def Win.clear (w : WinState) : WinState :=
  Win.write (Win.write w File.Addr ",") File.Data ""

/-- `Win::name`: issue the `name` control command. -/
def Win.name (w : WinState) (name : String) : WinState :=
  Win.ctl w ("name " ++ name)

/-- `Win::del`: issue `delete` when sure, else `del`. -/
def Win.del (w : WinState) (sure : Bool) : WinState :=
  Win.ctl w (if sure then "delete" else "del")

/-- `Event::load_text`: when the text is empty and the start address is
strictly below the end address the Rust body aborts with `unimplemented`
(the deferred load through the addr and data resources is left as a stub);
otherwise the event is returned unchanged. -/
def Event.load_text (e : Event) : Except String Event :=
  if e.text.length = 0 ∧ e.q0 < e.q1 then .error "unimplemented" else .ok e

/-! ### Basic lemmas about the reading primitives -/

theorem get_ch_cons (c : Char) (s : List Char) : get_ch (c :: s) = .ok (c, s) := rfl

theorem get_digits_append (ds : List Char) :
    ∀ (n : Nat) (c : Char) (rest : List Char), (∀ x ∈ ds, isDig x) → ¬ isDig c →
      get_digits n (ds ++ c :: rest) =
        .ok (ds.foldl (fun a x => (a * 10 + (x.toNat - '0'.toNat)) % U32MOD) n, c, rest) := by
  induction ds with
  | nil =>
    intro n c rest _ hc
    have hc' : c < '0' ∨ '9' < c := not_not.mp hc
    simp [get_digits, hc']
  | cons d ds ih =>
    intro n c rest hds hc
    have hd : isDig d := hds d (List.mem_cons_self d ds)
    have hd' : ¬(d < '0' ∨ '9' < d) := hd
    simp only [List.cons_append, get_digits, if_neg hd', List.foldl_cons]
    exact ih _ c rest (fun x hx => hds x (List.mem_cons_of_mem d hx)) hc

theorem get_en_space (ds rest : List Char) (hds : ∀ x ∈ ds, isDig x) :
    get_en (ds ++ ' ' :: rest) = .ok (digits_val ds, rest) := by
  unfold get_en
  rw [get_digits_append ds 0 ' ' rest hds (by decide)]
  simp [digits_val]

theorem get_en_notspace (ds : List Char) (c : Char) (rest : List Char)
    (hds : ∀ x ∈ ds, isDig x) (hc : ¬ isDig c) (hcs : c ≠ ' ') :
    get_en (ds ++ c :: rest) = .error "event number syntax" := by
  unfold get_en
  rw [get_digits_append ds 0 c rest hds hc]
  simp [hcs]

theorem foldl_wrap_eq_mod (ds : List Char) :
    ∀ n : Nat,
      ds.foldl (fun a x => (a * 10 + (x.toNat - '0'.toNat)) % U32MOD) (n % U32MOD) =
        (ds.foldl (fun a x => a * 10 + (x.toNat - '0'.toNat)) n) % U32MOD := by
  induction ds with
  | nil => intro n; simp
  | cons d ds ih =>
    intro n
    have h : ((n % U32MOD) * 10 + (d.toNat - '0'.toNat)) % U32MOD
        = (n * 10 + (d.toNat - '0'.toNat)) % U32MOD :=
      ((Nat.mod_modEq n U32MOD).mul_right 10).add_right _
    simp only [List.foldl_cons]
    rw [h]
    exact ih (n * 10 + (d.toNat - '0'.toNat))

theorem digits_val_eq_mod (ds : List Char) : digits_val ds = decimal_val ds % U32MOD := by
  have h := foldl_wrap_eq_mod ds 0
  simpa [digits_val, decimal_val] using h

theorem digitChar_isDig : ∀ k, k < 10 → isDig (Nat.digitChar k) := by decide

theorem digitChar_val : ∀ k, k < 10 → (Nat.digitChar k).toNat - '0'.toNat = k := by decide

theorem natDigits_isDig (n : Nat) : ∀ c ∈ natDigits n, isDig c := by
  induction n using Nat.strong_induction_on with
  | _ n ih =>
    rw [natDigits]
    by_cases h : n < 10
    · rw [if_pos h]
      intro c hc
      rw [List.mem_singleton] at hc
      exact hc ▸ digitChar_isDig n h
    · rw [if_neg h]
      intro c hc
      rcases List.mem_append.mp hc with h1 | h2
      · exact ih (n / 10) (Nat.div_lt_self (by omega) (by omega)) c h1
      · rw [List.mem_singleton] at h2
        exact h2 ▸ digitChar_isDig (n % 10) (Nat.mod_lt _ (by omega))

theorem foldl_decimal_natDigits (n : Nat) :
    ∀ a : Nat,
      (natDigits n).foldl (fun x c => x * 10 + (c.toNat - '0'.toNat)) a
        = a * 10 ^ (natDigits n).length + n := by
  induction n using Nat.strong_induction_on with
  | _ n ih =>
    intro a
    rw [natDigits]
    by_cases h : n < 10
    · rw [if_pos h]
      have hv := digitChar_val n h
      simp only [List.foldl_cons, List.foldl_nil, List.length_singleton, pow_one, hv]
    · rw [if_neg h]
      rw [List.foldl_append, ih (n / 10) (Nat.div_lt_self (by omega) (by omega)) a]
      simp only [List.foldl_cons, List.foldl_nil, List.length_append, List.length_singleton]
      rw [digitChar_val (n % 10) (Nat.mod_lt _ (by omega))]
      have hdm := Nat.div_add_mod n 10
      rw [pow_succ]
      ring_nf
      omega

theorem decimal_val_natDigits (n : Nat) : decimal_val (natDigits n) = n := by
  have h := foldl_decimal_natDigits n 0
  simpa [decimal_val] using h

theorem digits_val_natDigits (n : Nat) (h : n < U32MOD) : digits_val (natDigits n) = n := by
  rw [digits_val_eq_mod, decimal_val_natDigits, Nat.mod_eq_of_lt h]

/-! ### Claims about the numeric-field reader -/

/-- Claim C5 is corrected: the counterexample. The digit run `4294967296`
(value 2^32) is followed by a single space, yet the field does not decode to
the digit run's value 4294967296: the `u32` accumulation wraps and yields 0. -/
theorem get_en_overflow_cex :
    get_en "4294967296 ".data = .ok (0, []) ∧
    decimal_val "4294967296".data = 4294967296 ∧ (0 : Nat) ≠ 4294967296 :=
  ⟨by decide, by decide, by decide⟩

/-- Claim C5 (amended): a numeric field whose digit run is followed by any
character other than a single space fails with the format error
`event number syntax`; a digit run followed by a single space decodes to the
digit run's value reduced modulo 2^32 (the value itself whenever it is below
2^32), consuming exactly the digits and that one space. -/
theorem get_en_delimiter_spec (ds : List Char) (c : Char) (rest : List Char)
    (hds : ∀ x ∈ ds, isDig x) (hc : ¬ isDig c) :
    (c ≠ ' ' → get_en (ds ++ c :: rest) = .error "event number syntax") ∧
    (c = ' ' → get_en (ds ++ c :: rest) = .ok (digits_val ds, rest)) ∧
    digits_val ds = decimal_val ds % U32MOD := by
  refine ⟨fun hcs => get_en_notspace ds c rest hds hc hcs, fun hcs => ?_, digits_val_eq_mod ds⟩
  subst hcs
  exact get_en_space ds rest hds

/-- Witness for the amended claim C5 at the concrete digit run `12`,
terminated once by `x` and once by a space. -/
theorem get_en_delimiter_spec_witness :
    get_en ("12".data ++ 'x' :: []) = .error "event number syntax" ∧
    get_en ("12".data ++ ' ' :: []) = .ok (digits_val "12".data, []) :=
  ⟨(get_en_delimiter_spec "12".data 'x' [] (by decide) (by decide)).1 (by decide),
   (get_en_delimiter_spec "12".data ' ' [] (by decide) (by decide)).2.1 rfl⟩

/-- Claim C10: an empty digit run followed by a space is not a format error:
`get_en` returns 0 and consumes only the space (instance `ds = []`, since the
exact decimal value of an empty run is 0); in general the digit run's value is
accumulated by wrap-around `u32` arithmetic, so the decoded value is the exact
decimal value reduced modulo 2^32 rather than a format error on overflow. -/
theorem get_en_empty_run_and_wraparound (ds rest : List Char) (hds : ∀ x ∈ ds, isDig x) :
    get_en (ds ++ ' ' :: rest) = .ok (decimal_val ds % U32MOD, rest) := by
  rw [get_en_space ds rest hds, digits_val_eq_mod]

/-- Witness for claim C10: a missing number decodes as 0, and the digit run
`4294967296` wraps around to 0. -/
theorem get_en_empty_run_and_wraparound_witness :
    get_en ([] ++ ' ' :: "rest".data) = .ok (0, "rest".data) ∧
    get_en ("4294967296".data ++ ' ' :: []) = .ok (0, []) := by
  constructor
  · have h := get_en_empty_run_and_wraparound [] "rest".data (by decide)
    simpa using h
  · have h := get_en_empty_run_and_wraparound "4294967296".data [] (by decide)
    rw [h]
    decide

/-- Claim C7: the raw byte sequence `EX10 10 0 4 blah\n` decodes, in a single
`read_event` call consuming the whole sequence, to the event with origin `E`,
action `X`, start and end address 10, flag 0, text `blah`, and pre-expansion
addresses 10/10. -/
theorem literal_example_decode :
    read_event "EX10 10 0 4 blah\n".data =
      .ok ({ c1 := 'E', c2 := 'X', q0 := 10, q1 := 10, orig_q0 := 10, orig_q1 := 10,
             flag := 0, nr := 4, text := "blah", arg := "", loc := "" }, []) := by
  decide

/-! ### Round-trip and window control claims -/

theorem get_en_zero_space (rest : List Char) : get_en ('0' :: ' ' :: rest) = .ok (0, rest) := rfl

/-- Claim C6: encoding an event's origin, action, start and end with
`write_event` and decoding the record built from exactly that output with
flag 0 and count 0 yields an event with identical origin, action, start and
end (the hypotheses record that the address fields are `u32` values). -/
theorem write_read_roundtrip (ev : Event) (h0 : ev.q0 < U32MOD) (h1 : ev.q1 < U32MOD) :
    read_event (record_of_output (write_event ev)) =
      .ok ({ c1 := ev.c1, c2 := ev.c2, q0 := ev.q0, q1 := ev.q1, orig_q0 := ev.q0,
             orig_q1 := ev.q1, flag := 0, nr := 0, text := "", arg := "", loc := "" }, []) := by
  have hrec : record_of_output (write_event ev)
      = ev.c1 :: ev.c2 :: (natDigits ev.q0 ++ ' ' ::
          (natDigits ev.q1 ++ ' ' :: '0' :: ' ' :: '0' :: ' ' :: '\n' :: [])) := by
    have hw : write_event ev
        = (ev.c1 :: ev.c2 :: (natDigits ev.q0 ++ ' ' :: (natDigits ev.q1 ++ [' ']))) ++ ['\n'] := by
      simp [write_event]
    rw [record_of_output, hw, List.dropLast_concat]
    simp
  have e0 : get_en (natDigits ev.q0 ++ ' ' ::
        (natDigits ev.q1 ++ ' ' :: '0' :: ' ' :: '0' :: ' ' :: '\n' :: []))
      = .ok (ev.q0, natDigits ev.q1 ++ ' ' :: '0' :: ' ' :: '0' :: ' ' :: '\n' :: []) := by
    rw [get_en_space _ _ (natDigits_isDig ev.q0), digits_val_natDigits ev.q0 h0]
  have e1 : get_en (natDigits ev.q1 ++ ' ' :: '0' :: ' ' :: '0' :: ' ' :: '\n' :: [])
      = .ok (ev.q1, '0' :: ' ' :: '0' :: ' ' :: '\n' :: []) := by
    rw [get_en_space _ _ (natDigits_isDig ev.q1), digits_val_natDigits ev.q1 h1]
  rw [hrec]
  simp [read_event, get_event, get_ch, e0, e1, get_en_zero_space, EVENT_SIZE, get_text]

/-- Witness for claim C6 at a concrete event whose flag, text, arg and loc are
not serialized and whose addresses are 10 and 20. -/
theorem write_read_roundtrip_witness :
    read_event (record_of_output (write_event
        { c1 := 'E', c2 := 'X', q0 := 10, q1 := 20, orig_q0 := 0, orig_q1 := 0,
          flag := 7, nr := 3, text := "abc", arg := "a", loc := "b" })) =
      .ok ({ c1 := 'E', c2 := 'X', q0 := 10, q1 := 20, orig_q0 := 10, orig_q1 := 20,
             flag := 0, nr := 0, text := "", arg := "", loc := "" }, []) :=
  write_read_roundtrip _ (by decide) (by decide)

/-- Claim C8: `clear` issues exactly two writes, in order: first the address
expression `,` to the addr resource, then the empty string to the data
resource; no other resource is written. -/
theorem clear_writes_spec (w : WinState) :
    (Win.clear w).writes = w.writes ++ [(File.Addr, ","), (File.Data, "")] := by
  simp [Win.clear, Win.write]

/-- Claim C9 states the intended deferred text load; the code instead aborts.
On an event with empty text and start address strictly below end address,
`load_text` fails with `unimplemented` rather than setting the window's
address, reading the data resource and assigning the content to the text. -/
theorem load_text_unimplemented_bug :
    Event.load_text { c1 := 'E', c2 := 'L', q0 := 0, q1 := 1, orig_q0 := 0, orig_q1 := 1,
                      flag := 0, nr := 0, text := "", arg := "", loc := "" }
      = .error "unimplemented" := by decide

/-! ### Which error messages the reading primitives can produce -/

theorem get_ch_error_msg (s : List Char) (e : String) (h : get_ch s = .error e) :
    e = "expected another character" := by
  cases s with
  | nil => simpa [get_ch] using h.symm
  | cons c rest => simp [get_ch] at h

theorem get_text_error_msg (k : Nat) : ∀ (s : List Char) (e : String),
    get_text k s = .error e → e = "expected another character" := by
  induction k with
  | zero => intro s e h; simp [get_text] at h
  | succ k ih =>
    intro s e h
    cases hc : get_ch s with
    | error er =>
      simp only [get_text, hc] at h
      exact (Except.error.injEq _ _ ▸ h : er = e) ▸ get_ch_error_msg s er hc
    | ok p =>
      obtain ⟨c, s1⟩ := p
      simp only [get_text, hc] at h
      cases ht : get_text k s1 with
      | error er =>
        rw [ht] at h
        simp only [Except.error.injEq] at h
        exact h ▸ ih s1 er ht
      | ok q => rw [ht] at h; simp at h

/-! ### Lengths: every successful decode strictly shrinks the stream -/

theorem get_ch_length (s : List Char) (c : Char) (rest : List Char)
    (h : get_ch s = .ok (c, rest)) : rest.length < s.length := by
  cases s with
  | nil => simp [get_ch] at h
  | cons d s =>
    simp only [get_ch, Except.ok.injEq, Prod.mk.injEq] at h
    rw [← h.2]
    simp

theorem get_digits_length (s : List Char) : ∀ (n v : Nat) (c : Char) (rest : List Char),
    get_digits n s = .ok (v, c, rest) → rest.length < s.length := by
  induction s with
  | nil => intro n v c rest h; simp [get_digits] at h
  | cons d s ih =>
    intro n v c rest h
    simp only [get_digits] at h
    by_cases hd : d < '0' ∨ '9' < d
    · rw [if_pos hd] at h
      simp only [Except.ok.injEq, Prod.mk.injEq] at h
      rw [← h.2.2]
      simp
    · rw [if_neg hd] at h
      have := ih _ v c rest h
      simp only [List.length_cons]
      omega

theorem get_en_length (s : List Char) (v : Nat) (rest : List Char)
    (h : get_en s = .ok (v, rest)) : rest.length < s.length := by
  unfold get_en at h
  cases hg : get_digits 0 s with
  | error e => rw [hg] at h; simp at h
  | ok p =>
    obtain ⟨n, c, r⟩ := p
    simp only [hg] at h
    by_cases hc : c ≠ ' '
    · rw [if_pos hc] at h; simp at h
    · rw [if_neg hc] at h
      simp only [Except.ok.injEq, Prod.mk.injEq] at h
      exact h.2 ▸ get_digits_length s 0 n c r hg

theorem get_text_length (k : Nat) : ∀ (s t rest : List Char),
    get_text k s = .ok (t, rest) → rest.length ≤ s.length := by
  induction k with
  | zero =>
    intro s t rest h
    simp only [get_text, Except.ok.injEq, Prod.mk.injEq] at h
    exact h.2 ▸ Nat.le_refl _
  | succ k ih =>
    intro s t rest h
    cases hc : get_ch s with
    | error e => simp [get_text, hc] at h
    | ok p =>
      obtain ⟨c, s1⟩ := p
      simp only [get_text, hc] at h
      cases ht : get_text k s1 with
      | error e => rw [ht] at h; simp at h
      | ok q =>
        obtain ⟨cs, s2⟩ := q
        rw [ht] at h
        simp only [Except.ok.injEq, Prod.mk.injEq] at h
        have l1 := ih s1 cs s2 ht
        have l2 := get_ch_length s c s1 hc
        rw [← h.2]
        omega

theorem get_event_length (s : List Char) (e : Event) (rest : List Char)
    (h : get_event s = .ok (e, rest)) : rest.length < s.length := by
  unfold get_event at h
  cases h1 : get_ch s with
  | error er => simp [h1] at h
  | ok p1 =>
  obtain ⟨c1, sa⟩ := p1
  simp only [h1] at h
  cases h2 : get_ch sa with
  | error er => simp [h2] at h
  | ok p2 =>
  obtain ⟨c2, sb⟩ := p2
  simp only [h2] at h
  cases h3 : get_en sb with
  | error er => simp [h3] at h
  | ok p3 =>
  obtain ⟨q0, sc⟩ := p3
  simp only [h3] at h
  cases h4 : get_en sc with
  | error er => simp [h4] at h
  | ok p4 =>
  obtain ⟨q1, sd⟩ := p4
  simp only [h4] at h
  cases h5 : get_en sd with
  | error er => simp [h5] at h
  | ok p5 =>
  obtain ⟨flag, se⟩ := p5
  simp only [h5] at h
  cases h6 : get_en se with
  | error er => simp [h6] at h
  | ok p6 =>
  obtain ⟨nr, sf⟩ := p6
  simp only [h6] at h
  by_cases hnr : nr > EVENT_SIZE
  · rw [if_pos hnr] at h; simp at h
  · rw [if_neg hnr] at h
    cases h7 : get_text nr sf with
    | error er => simp [h7] at h
    | ok p7 =>
    obtain ⟨t, s7⟩ := p7
    simp only [h7] at h
    cases h8 : get_ch s7 with
    | error er => simp [h8] at h
    | ok p8 =>
    obtain ⟨nl, s8⟩ := p8
    simp only [h8] at h
    by_cases hnl : nl ≠ '\n'
    · rw [if_pos hnl] at h; simp at h
    · rw [if_neg hnl] at h
      simp only [Except.ok.injEq, Prod.mk.injEq] at h
      have l1 := get_ch_length s c1 sa h1
      have l2 := get_ch_length sa c2 sb h2
      have l3 := get_en_length sb q0 sc h3
      have l4 := get_en_length sc q1 sd h4
      have l5 := get_en_length sd flag se h5
      have l6 := get_en_length se nr sf h6
      have l7 := get_text_length nr sf t s7 h7
      have l8 := get_ch_length s7 nl s8 h8
      rw [← h.2]
      omega

/-! ### Composition and uniqueness of raw-record consumption -/

theorem drop_events_add (a b : Nat) : ∀ s : List Char,
    drop_events (a + b) s =
      (match drop_events a s with
       | .error e => .error e
       | .ok r => drop_events b r) := by
  induction a with
  | zero => intro s; simp [drop_events, Nat.zero_add]
  | succ a ih =>
    intro s
    have hab : a + 1 + b = (a + b) + 1 := by omega
    rw [hab]
    simp only [drop_events]
    cases hg : get_event s with
    | error e => simp
    | ok p =>
      obtain ⟨e, s1⟩ := p
      simpa using ih s1

theorem drop_events_pos_length (k : Nat) : ∀ (s r : List Char),
    drop_events (k + 1) s = .ok r → r.length < s.length := by
  induction k with
  | zero =>
    intro s r h
    simp only [drop_events] at h
    cases hg : get_event s with
    | error e => rw [hg] at h; simp at h
    | ok p =>
      obtain ⟨e, s1⟩ := p
      rw [hg] at h
      simp only [drop_events, Except.ok.injEq] at h
      exact h ▸ get_event_length s e s1 hg
  | succ k ih =>
    intro s r h
    rw [show k + 1 + 1 = (k + 1) + 1 from rfl] at h
    simp only [drop_events] at h
    cases hg : get_event s with
    | error e => rw [hg] at h; simp at h
    | ok p =>
      obtain ⟨e, s1⟩ := p
      rw [hg] at h
      have l1 := ih s1 r h
      have l2 := get_event_length s e s1 hg
      omega

theorem drop_events_unique (m n : Nat) (s r : List Char)
    (hm : drop_events m s = .ok r) (hn : drop_events n s = .ok r) : m = n := by
  rcases lt_trichotomy m n with h | h | h
  · exfalso
    have hsum : n = m + (n - m) := by omega
    rw [hsum, drop_events_add m (n - m) s, hm] at hn
    obtain ⟨k, hk⟩ : ∃ k, n - m = k + 1 := ⟨n - m - 1, by omega⟩
    rw [hk] at hn
    exact absurd (drop_events_pos_length k r r hn) (by omega)
  · exact h
  · exfalso
    have hsum : m = n + (m - n) := by omega
    rw [hsum, drop_events_add n (m - n) s, hn] at hm
    obtain ⟨k, hk⟩ : ∃ k, m - n = k + 1 := ⟨m - n - 1, by omega⟩
    rw [hk] at hm
    exact absurd (drop_events_pos_length k r r hm) (by omega)

/-! ### The size check in the raw-record decoder -/

/-- Claim C4: once the two characters and the four numeric fields of a raw
record have decoded, a character count above 256 makes `get_event` fail with
`event size too long`; the remainder `sf` after the count field is completely
unconstrained, so the failure is decided before any text character is
consumed. A count of exactly 256 is never rejected by this check. -/
theorem get_event_count_check (s sa sb sc sd se sf : List Char) (c1 c2 : Char)
    (q0 q1 flag nr : Nat)
    (h1 : get_ch s = .ok (c1, sa)) (h2 : get_ch sa = .ok (c2, sb))
    (h3 : get_en sb = .ok (q0, sc)) (h4 : get_en sc = .ok (q1, sd))
    (h5 : get_en sd = .ok (flag, se)) (h6 : get_en se = .ok (nr, sf)) :
    (256 < nr → get_event s = .error "event size too long") ∧
    (nr = 256 → get_event s ≠ .error "event size too long") := by
  constructor
  · intro hnr
    simp only [get_event, h1, h2, h3, h4, h5, h6]
    rw [if_pos (by simpa [EVENT_SIZE] using hnr)]
  · intro hnr
    subst hnr
    simp only [get_event, h1, h2, h3, h4, h5, h6]
    rw [if_neg (by simp [EVENT_SIZE])]
    cases ht : get_text 256 sf with
    | error e =>
      have he := get_text_error_msg 256 sf e ht
      subst he
      simp only [ht]
      decide
    | ok p =>
      obtain ⟨t, s7⟩ := p
      simp only [ht]
      cases hc : get_ch s7 with
      | error e =>
        have he := get_ch_error_msg s7 e hc
        subst he
        simp only [hc]
        decide
      | ok q =>
        obtain ⟨nl, s8⟩ := q
        simp only [hc]
        by_cases hnl : nl = '\n'
        · simp [hnl]
        · simp [hnl]

/-- Witness for claim C4: the stream `AB0 0 0 257 ` ends right after the
count field, and `get_event` already reports the oversized count. -/
theorem get_event_count_check_witness :
    get_event "AB0 0 0 257 ".data = .error "event size too long" :=
  (get_event_count_check "AB0 0 0 257 ".data "B0 0 0 257 ".data "0 0 0 257 ".data
      "0 0 257 ".data "0 257 ".data "257 ".data [] 'A' 'B' 0 0 0 257
      (by decide) (by decide) (by decide) (by decide) (by decide) (by decide)).1
    (by decide)

/-! ### How many raw records one read_event call consumes -/

theorem drop_events_cons (n : Nat) (s s1 : List Char) (e : Event)
    (h : get_event s = .ok (e, s1)) : drop_events (n + 1) s = drop_events n s1 := by
  simp [drop_events, h]

/-- Claim C1 is corrected: the counterexample. The stream of the three raw
records `AB0 0 8 0 `, `CD1 2 0 1 x`, `EF3 4 0 1 y`, whose first record has
flag 8 (chorded bit set, expansion bit clear), makes a single `read_event`
call consume exactly three raw records: its remainder is the remainder after
three base decodes, not after one or two, and no fourth record exists. -/
theorem read_event_three_records_cex :
    read_event "AB0 0 8 0 \nCD1 2 0 1 x\nEF3 4 0 1 y\n".data =
      .ok ({ c1 := 'A', c2 := 'B', q0 := 0, q1 := 0, orig_q0 := 0, orig_q1 := 0,
             flag := 8, nr := 0, text := "", arg := "x", loc := "y" }, []) ∧
    drop_events 3 "AB0 0 8 0 \nCD1 2 0 1 x\nEF3 4 0 1 y\n".data = .ok [] ∧
    drop_events 1 "AB0 0 8 0 \nCD1 2 0 1 x\nEF3 4 0 1 y\n".data ≠ .ok [] ∧
    drop_events 2 "AB0 0 8 0 \nCD1 2 0 1 x\nEF3 4 0 1 y\n".data ≠ .ok [] ∧
    drop_events 4 "AB0 0 8 0 \nCD1 2 0 1 x\nEF3 4 0 1 y\n".data =
      .error "expected another character" :=
  ⟨by decide, by decide, by decide, by decide, by decide⟩

/-- Claim C1 (amended): a successful `read_event` call consumes exactly 1, 2,
3 or 4 raw records — one base record, one more when flag bit 2 of the first
decoded record is set, and two more when its flag bit 8 is set — and no other
count reproduces its remainder. -/
theorem read_event_consumption (s s' : List Char) (e : Event)
    (hre : read_event s = .ok (e, s')) :
    ∃ (e1 : Event) (s1 : List Char) (n : Nat),
      get_event s = .ok (e1, s1) ∧
      n = 1 + (if e1.flag &&& 2 ≠ 0 then 1 else 0) +
        (if e1.flag &&& 8 ≠ 0 then 2 else 0) ∧
      (n = 1 ∨ n = 2 ∨ n = 3 ∨ n = 4) ∧
      drop_events n s = .ok s' ∧
      ∀ m, drop_events m s = .ok s' → m = n := by
  unfold read_event at hre
  cases h1 : get_event s with
  | error er => rw [h1] at hre; simp at hre
  | ok p1 =>
  obtain ⟨e1, s1⟩ := p1
  simp only [h1] at hre
  by_cases hb2 : e1.flag &&& 2 ≠ 0
  · simp only [if_pos hb2] at hre
    cases h2 : get_event s1 with
    | error er => rw [h2] at hre; simp at hre
    | ok p2 =>
    obtain ⟨e2, s2⟩ := p2
    simp only [h2] at hre
    by_cases hq : e1.q0 = e1.q1
    · simp only [if_pos hq] at hre
      by_cases hb8 : e1.flag &&& 8 ≠ 0
      · rw [if_pos hb8] at hre
        cases h3 : get_event s2 with
        | error er => rw [h3] at hre; simp at hre
        | ok p3 =>
        obtain ⟨e3, s3⟩ := p3
        simp only [h3] at hre
        cases h4 : get_event s3 with
        | error er => rw [h4] at hre; simp at hre
        | ok p4 =>
        obtain ⟨e4, s4⟩ := p4
        simp only [h4, Except.ok.injEq, Prod.mk.injEq] at hre
        obtain ⟨hE, hS⟩ := hre
        have hdrop : drop_events 4 s = .ok s' := by
          have d1 : drop_events 4 s = drop_events 3 s1 := drop_events_cons 3 s s1 e1 h1
          have d2 : drop_events 3 s1 = drop_events 2 s2 := drop_events_cons 2 s1 s2 e2 h2
          have d3 : drop_events 2 s2 = drop_events 1 s3 := drop_events_cons 1 s2 s3 e3 h3
          have d4 : drop_events 1 s3 = drop_events 0 s4 := drop_events_cons 0 s3 s4 e4 h4
          rw [d1, d2, d3, d4, ← hS]
          rfl
        exact ⟨e1, s1, 4, rfl, by simp [hb2, hb8], by simp, hdrop,
          fun m hm => drop_events_unique m 4 s s' hm hdrop⟩
      · rw [if_neg hb8] at hre
        simp only [Except.ok.injEq, Prod.mk.injEq] at hre
        obtain ⟨hE, hS⟩ := hre
        have hdrop : drop_events 2 s = .ok s' := by
          have d1 : drop_events 2 s = drop_events 1 s1 := drop_events_cons 1 s s1 e1 h1
          have d2 : drop_events 1 s1 = drop_events 0 s2 := drop_events_cons 0 s1 s2 e2 h2
          rw [d1, d2, ← hS]
          rfl
        exact ⟨e1, s1, 2, rfl, by simp [hb2, hb8], by simp, hdrop,
          fun m hm => drop_events_unique m 2 s s' hm hdrop⟩
    · simp only [if_neg hq] at hre
      by_cases hb8 : e1.flag &&& 8 ≠ 0
      · simp only [if_pos hb8] at hre
        cases h3 : get_event s2 with
        | error er => rw [h3] at hre; simp at hre
        | ok p3 =>
        obtain ⟨e3, s3⟩ := p3
        simp only [h3] at hre
        cases h4 : get_event s3 with
        | error er => rw [h4] at hre; simp at hre
        | ok p4 =>
        obtain ⟨e4, s4⟩ := p4
        simp only [h4, Except.ok.injEq, Prod.mk.injEq] at hre
        obtain ⟨hE, hS⟩ := hre
        have hdrop : drop_events 4 s = .ok s' := by
          have d1 : drop_events 4 s = drop_events 3 s1 := drop_events_cons 3 s s1 e1 h1
          have d2 : drop_events 3 s1 = drop_events 2 s2 := drop_events_cons 2 s1 s2 e2 h2
          have d3 : drop_events 2 s2 = drop_events 1 s3 := drop_events_cons 1 s2 s3 e3 h3
          have d4 : drop_events 1 s3 = drop_events 0 s4 := drop_events_cons 0 s3 s4 e4 h4
          rw [d1, d2, d3, d4, ← hS]
          rfl
        exact ⟨e1, s1, 4, rfl, by simp [hb2, hb8], by simp, hdrop,
          fun m hm => drop_events_unique m 4 s s' hm hdrop⟩
      · simp only [if_neg hb8] at hre
        simp only [Except.ok.injEq, Prod.mk.injEq] at hre
        obtain ⟨hE, hS⟩ := hre
        have hdrop : drop_events 2 s = .ok s' := by
          have d1 : drop_events 2 s = drop_events 1 s1 := drop_events_cons 1 s s1 e1 h1
          have d2 : drop_events 1 s1 = drop_events 0 s2 := drop_events_cons 0 s1 s2 e2 h2
          rw [d1, d2, ← hS]
          rfl
        exact ⟨e1, s1, 2, rfl, by simp [hb2, hb8], by simp, hdrop,
          fun m hm => drop_events_unique m 2 s s' hm hdrop⟩
  · simp only [if_neg hb2] at hre
    by_cases hb8 : e1.flag &&& 8 ≠ 0
    · simp only [if_pos hb8] at hre
      cases h3 : get_event s1 with
      | error er => rw [h3] at hre; simp at hre
      | ok p3 =>
      obtain ⟨e3, s3⟩ := p3
      simp only [h3] at hre
      cases h4 : get_event s3 with
      | error er => rw [h4] at hre; simp at hre
      | ok p4 =>
      obtain ⟨e4, s4⟩ := p4
      simp only [h4, Except.ok.injEq, Prod.mk.injEq] at hre
      obtain ⟨hE, hS⟩ := hre
      have hdrop : drop_events 3 s = .ok s' := by
        have d1 : drop_events 3 s = drop_events 2 s1 := drop_events_cons 2 s s1 e1 h1
        have d2 : drop_events 2 s1 = drop_events 1 s3 := drop_events_cons 1 s1 s3 e3 h3
        have d3 : drop_events 1 s3 = drop_events 0 s4 := drop_events_cons 0 s3 s4 e4 h4
        rw [d1, d2, d3, ← hS]
        rfl
      exact ⟨e1, s1, 3, rfl, by simp [hb2, hb8], by simp, hdrop,
        fun m hm => drop_events_unique m 3 s s' hm hdrop⟩
    · simp only [if_neg hb8] at hre
      simp only [Except.ok.injEq, Prod.mk.injEq] at hre
      obtain ⟨hE, hS⟩ := hre
      have hdrop : drop_events 1 s = .ok s' := by
        have d1 : drop_events 1 s = drop_events 0 s1 := drop_events_cons 0 s s1 e1 h1
        rw [d1, ← hS]
        rfl
      exact ⟨e1, s1, 1, rfl, by simp [hb2, hb8], by simp, hdrop,
        fun m hm => drop_events_unique m 1 s s' hm hdrop⟩

/-- Witness for the amended claim C1 at the single-record stream
`AB1 2 0 0 `. -/
theorem read_event_consumption_witness :
    ∃ (e1 : Event) (s1 : List Char) (n : Nat),
      get_event "AB1 2 0 0 \n".data = .ok (e1, s1) ∧
      n = 1 + (if e1.flag &&& 2 ≠ 0 then 1 else 0) +
        (if e1.flag &&& 8 ≠ 0 then 2 else 0) ∧
      (n = 1 ∨ n = 2 ∨ n = 3 ∨ n = 4) ∧
      drop_events n "AB1 2 0 0 \n".data = .ok [] ∧
      ∀ m, drop_events m "AB1 2 0 0 \n".data = .ok [] → m = n :=
  read_event_consumption "AB1 2 0 0 \n".data []
    { c1 := 'A', c2 := 'B', q0 := 1, q1 := 2, orig_q0 := 1, orig_q1 := 2,
      flag := 0, nr := 0, text := "", arg := "", loc := "" } (by decide)

/-- Claim C2 is corrected: the counterexample. The first record `AB5 5 10 0 `
has flag bit 2 set and equal addresses, but flag bit 8 is also set, so the
call consumes four raw records rather than exactly two. -/
theorem expansion_equal_addr_four_records_cex :
    read_event "AB5 5 10 0 \nCD1 2 0 1 x\nEF0 0 0 1 y\nGH0 0 0 1 z\n".data =
      .ok ({ c1 := 'C', c2 := 'D', q0 := 1, q1 := 2, orig_q0 := 5, orig_q1 := 5,
             flag := 10, nr := 1, text := "x", arg := "y", loc := "z" }, []) ∧
    drop_events 2 "AB5 5 10 0 \nCD1 2 0 1 x\nEF0 0 0 1 y\nGH0 0 0 1 z\n".data ≠ .ok [] ∧
    drop_events 4 "AB5 5 10 0 \nCD1 2 0 1 x\nEF0 0 0 1 y\nGH0 0 0 1 z\n".data = .ok [] :=
  ⟨by decide, by decide, by decide⟩

/-- Claim C2 (amended): when the first raw record has flag bit 2 set, flag
bit 8 clear and equal start and end addresses, `read_event` consumes exactly
two raw records and returns the second record with its pre-expansion address
fields and flag overwritten from the first record; its text is the second
record's text unchanged. -/
theorem read_event_expansion_replaces (s s1 s2 : List Char) (e1 e2 : Event)
    (h1 : get_event s = .ok (e1, s1)) (h2 : get_event s1 = .ok (e2, s2))
    (hb2 : e1.flag &&& 2 ≠ 0) (hb8 : e1.flag &&& 8 = 0) (hq : e1.q0 = e1.q1) :
    read_event s =
      .ok ({ e2 with orig_q0 := e1.q0, orig_q1 := e1.q1, flag := e1.flag }, s2) ∧
    drop_events 2 s = .ok s2 := by
  constructor
  · unfold read_event
    simp only [h1, if_pos hb2, h2, if_pos hq]
    simp [hb8]
  · have d1 : drop_events 2 s = drop_events 1 s1 := drop_events_cons 1 s s1 e1 h1
    have d2 : drop_events 1 s1 = drop_events 0 s2 := drop_events_cons 0 s1 s2 e2 h2
    rw [d1, d2]
    rfl

/-- Witness for the amended claim C2: the two records `AB5 5 2 0 ` and
`CD1 2 0 1 x`. -/
theorem read_event_expansion_replaces_witness :
    read_event "AB5 5 2 0 \nCD1 2 0 1 x\n".data =
      .ok ({ c1 := 'C', c2 := 'D', q0 := 1, q1 := 2, orig_q0 := 5, orig_q1 := 5,
             flag := 2, nr := 1, text := "x", arg := "", loc := "" }, []) ∧
    drop_events 2 "AB5 5 2 0 \nCD1 2 0 1 x\n".data = .ok [] :=
  read_event_expansion_replaces "AB5 5 2 0 \nCD1 2 0 1 x\n".data
    "CD1 2 0 1 x\n".data []
    { c1 := 'A', c2 := 'B', q0 := 5, q1 := 5, orig_q0 := 5, orig_q1 := 5,
      flag := 2, nr := 0, text := "", arg := "", loc := "" }
    { c1 := 'C', c2 := 'D', q0 := 1, q1 := 2, orig_q0 := 1, orig_q1 := 2,
      flag := 0, nr := 1, text := "x", arg := "", loc := "" }
    (by decide) (by decide) (by decide) (by decide) (by decide)

/-- Claim C3 is corrected: the counterexample. The first record `AB5 6 10 0 `
has flag bit 2 set and distinct addresses, but flag bit 8 is also set: the
call consumes four raw records, and the returned event is the first record
with its chorded arg and loc fields filled in — not the first record
verbatim. -/
theorem expansion_distinct_addr_four_records_cex :
    read_event "AB5 6 10 0 \nCD1 2 0 1 x\nEF0 0 0 1 y\nGH0 0 0 1 z\n".data =
      .ok ({ c1 := 'A', c2 := 'B', q0 := 5, q1 := 6, orig_q0 := 5, orig_q1 := 6,
             flag := 10, nr := 0, text := "", arg := "y", loc := "z" }, []) ∧
    ({ c1 := 'A', c2 := 'B', q0 := 5, q1 := 6, orig_q0 := 5, orig_q1 := 6,
       flag := 10, nr := 0, text := "", arg := "y", loc := "z" } : Event) ≠
      { c1 := 'A', c2 := 'B', q0 := 5, q1 := 6, orig_q0 := 5, orig_q1 := 6,
        flag := 10, nr := 0, text := "", arg := "", loc := "" } ∧
    drop_events 2 "AB5 6 10 0 \nCD1 2 0 1 x\nEF0 0 0 1 y\nGH0 0 0 1 z\n".data ≠ .ok [] ∧
    drop_events 4 "AB5 6 10 0 \nCD1 2 0 1 x\nEF0 0 0 1 y\nGH0 0 0 1 z\n".data = .ok [] :=
  ⟨by decide, by decide, by decide, by decide⟩

/-- Claim C3 (amended): when the first raw record has flag bit 2 set, flag
bit 8 clear and distinct start and end addresses, `read_event` still consumes
a second raw record — the remainder is the one after two base decodes — but
returns the first record verbatim. -/
theorem read_event_expansion_discards (s s1 s2 : List Char) (e1 e2 : Event)
    (h1 : get_event s = .ok (e1, s1)) (h2 : get_event s1 = .ok (e2, s2))
    (hb2 : e1.flag &&& 2 ≠ 0) (hb8 : e1.flag &&& 8 = 0) (hq : e1.q0 ≠ e1.q1) :
    read_event s = .ok (e1, s2) ∧ drop_events 2 s = .ok s2 := by
  constructor
  · unfold read_event
    simp only [h1, if_pos hb2, h2, if_neg hq]
    simp [hb8]
  · have d1 : drop_events 2 s = drop_events 1 s1 := drop_events_cons 1 s s1 e1 h1
    have d2 : drop_events 1 s1 = drop_events 0 s2 := drop_events_cons 0 s1 s2 e2 h2
    rw [d1, d2]
    rfl

/-- Witness for the amended claim C3: the two records `AB5 6 2 0 ` and
`CD1 2 0 1 x`. -/
theorem read_event_expansion_discards_witness :
    read_event "AB5 6 2 0 \nCD1 2 0 1 x\n".data =
      .ok ({ c1 := 'A', c2 := 'B', q0 := 5, q1 := 6, orig_q0 := 5, orig_q1 := 6,
             flag := 2, nr := 0, text := "", arg := "", loc := "" }, []) ∧
    drop_events 2 "AB5 6 2 0 \nCD1 2 0 1 x\n".data = .ok [] :=
  read_event_expansion_discards "AB5 6 2 0 \nCD1 2 0 1 x\n".data
    "CD1 2 0 1 x\n".data []
    { c1 := 'A', c2 := 'B', q0 := 5, q1 := 6, orig_q0 := 5, orig_q1 := 6,
      flag := 2, nr := 0, text := "", arg := "", loc := "" }
    { c1 := 'C', c2 := 'D', q0 := 1, q1 := 2, orig_q0 := 1, orig_q1 := 2,
      flag := 0, nr := 1, text := "x", arg := "", loc := "" }
    (by decide) (by decide) (by decide) (by decide) (by decide)

end Acre
